import Mathlib

/-!
Shallow embedding of `src/Code.py` (class `StockAnalysis`).

Modelling conventions:
* Calendar dates are encoded as natural numbers ordered like the calendar
  (concretely: day-of-year-2024 ordinals, so 2024-04-19 ↦ 110 and
  2024-04-22 ↦ 113).  Times of day are seconds since midnight, so the
  09:15:00 market-open cutoff is 33300.
* Volumes and last-traded quantities are rationals (the source holds them in
  numeric pandas columns and mixes them with float means).
* `Series.mean()` of an empty selection is NaN in pandas; NaN is modelled as
  `none : Option ℚ`.  Any float comparison against NaN is false, which the
  comparison helper `qGtB` reproduces.
* `sort_values` is modelled as a comparison sort on the sort key
  (`List.insertionSort`).  The source uses the pandas default
  `kind='quicksort'`, which is *not* stable, so no property proved here may
  depend on the relative order of rows with equal keys; whenever tie order
  could matter a distinctness hypothesis is carried instead.
* `pd.concat` of an empty list of frames raises `ValueError`; this is the
  only failure path of `analyze_intraday_data` and is modelled with
  `Except String`.
-/

/-- A row of the daily CSV: columns `Stock Name`, `Date`, `Volume`. -/
structure DailyRecord where
  stock : String
  date : ℕ
  volume : ℚ
deriving DecidableEq

/-- A row of the (concatenated) intraday CSVs: columns `Stock Name`, `Date`,
`Time`, `Last Traded Quantity`. -/
structure IntradayTick where
  stock : String
  date : ℕ
  time : ℕ
  ltq : ℚ
deriving DecidableEq

/-- The mutable state of a `StockAnalysis` object after `__init__`: the loaded
daily table and the concatenated intraday table. -/
structure AnalysisState where
  daily : List DailyRecord
  intraday : List IntradayTick
deriving DecidableEq

/-- `Series.mean()`: NaN (`none`) on an empty selection, otherwise the sum
divided by the count. -/
def listMean : List ℚ → Option ℚ
  | [] => none
  | l => some (l.sum / (l.length : ℚ))

/-- Sort key for `sort_values(by='Date', ascending=False)`. -/
def dateGE (a b : DailyRecord) : Prop := b.date ≤ a.date

instance : DecidableRel dateGE := fun a b => inferInstanceAs (Decidable (b.date ≤ a.date))

instance : IsTotal DailyRecord dateGE := ⟨fun a b => Nat.le_total b.date a.date⟩

instance : IsTrans DailyRecord dateGE := ⟨fun _ _ _ h₁ h₂ => le_trans h₂ h₁⟩

/-- Sort key for `sort_values(by='Time')`. -/
def timeLE (a b : IntradayTick) : Prop := a.time ≤ b.time

instance : DecidableRel timeLE := fun a b => inferInstanceAs (Decidable (a.time ≤ b.time))

instance : IsTotal IntradayTick timeLE := ⟨fun a b => Nat.le_total a.time b.time⟩

instance : IsTrans IntradayTick timeLE := ⟨fun _ _ _ h₁ h₂ => le_trans h₁ h₂⟩

/-- The row selection
`daily_data[(daily_data['Stock Name'] == stock) & (daily_data['Date'] < target)]`. -/
def priorRecords (daily : List DailyRecord) (stock : String) (target : ℕ) :
    List DailyRecord :=
  daily.filter (fun r => r.stock == stock && decide (r.date < target))

/-- `calculate_30_day_avg`: filter to strictly earlier rows of the stock, sort
descending by date, `head(30)`, and take the mean of the `Volume` column. -/
def calculate_30_day_avg (daily : List DailyRecord) (stock : String) (target : ℕ) :
    Option ℚ :=
  listMean
    (((List.insertionSort dateGE (priorRecords daily stock target)).take 30).map
      (·.volume))

/-- Modelled from the spec: the records whose date is among the 30
chronologically nearest (largest) dates of the selection, i.e. the records
with fewer than 30 strictly later records in the selection.  Used to compare
`calculate_30_day_avg` against the specification's wording. -/
def nearest30 (l : List DailyRecord) : List DailyRecord :=
  l.filter (fun r => decide (l.countP (fun s => decide (r.date < s.date)) < 30))

/-- 09:15:00 as seconds since midnight. -/
def marketOpen : ℕ := 33300

/-- Date ordinal of 2024-04-19. -/
def refDate19 : ℕ := 110

/-- Date ordinal of 2024-04-22. -/
def refDate22 : ℕ := 113

/-- The two reference dates, as (dictionary-key string, date ordinal) pairs,
in the order the source iterates them. -/
def refDates : List (String × ℕ) := [("19-04-2024", refDate19), ("22-04-2024", refDate22)]

/-- `get_avg_volumes`: one dictionary entry per distinct stock of the daily
table per reference date, holding the (possibly NaN) 30-day average. -/
def get_avg_volumes (daily : List DailyRecord) : List ((String × String) × Option ℚ) :=
  ((daily.map (·.stock)).dedup).flatMap fun stock =>
    refDates.map fun rd => ((stock, rd.1), calculate_30_day_avg daily stock rd.2)

/-- Association-list lookup, modelling a Python dictionary keyed by
`(stock name, date string)` pairs. -/
def assocLookup {β : Type} : List ((String × String) × β) → (String × String) → Option β
  | [], _ => none
  | (k', v) :: t, k => if k = k' then some v else assocLookup t k

/-- `avg_volumes.get((stock_name, Date), 0)`: dictionary lookup with default
`0` for a missing key.  A present key may still hold NaN (`none`). -/
def dictGetD (tbl : List ((String × String) × Option ℚ)) (k : String × String) :
    Option ℚ :=
  (assocLookup tbl k).getD (some 0)

/-- The rows of the market-open-filtered intraday table for one stock and one
date, sorted by time (`sort_values(by='Time')`). -/
def ticksFor (ticks : List IntradayTick) (stock : String) (d : ℕ) :
    List IntradayTick :=
  List.insertionSort timeLE (ticks.filter (fun t => t.stock == stock && t.date == d))

/-- `rolling(window=3600, min_periods=1).sum()`: the i-th output is the sum of
the trailing window of at most 3600 values ending at position i. -/
def rollingSums (qs : List ℚ) : List ℚ :=
  (List.range qs.length).map fun i => (((qs.take (i + 1)).drop (i + 1 - 3600))).sum

/-- The rolling series for one stock and one date: each retained tick paired
with its `cumulative_volume` value. -/
def seriesFor (ticks : List IntradayTick) (stock : String) (d : ℕ) :
    List (IntradayTick × ℚ) :=
  let st := ticksFor ticks stock d
  st.zip (rollingSums (st.map (·.ltq)))

/-- Float comparison `cumulative_volume > avg_volume`, where the right side may
be NaN (`none`): any comparison against NaN is false. -/
def qGtB (c : ℚ) : Option ℚ → Bool
  | none => false
  | some b => decide (b < c)

/-- The `Time` value of the first row with `cumulative_volume > avg_volume`,
or `none` when no row qualifies. -/
def firstCrossing (series : List (IntradayTick × ℚ)) (avg : Option ℚ) : Option ℕ :=
  (series.find? fun p => qGtB p.2 avg).map fun p => p.1.time

/-- `analyze_intraday_data`: filters the stored intraday table to
market-open-or-later (reassigning the attribute), loops over the stocks of the
filtered table (`groupby` iterates sorted distinct keys) and both reference
dates, and returns the two concatenated rolling tables and the results
dictionary (as an association list in insertion order).  `pd.concat` of an
empty list of frames raises, which is the `Except.error` case. -/
def analyze_intraday_data (s : AnalysisState)
    (avg : List ((String × String) × Option ℚ)) :
    AnalysisState ×
      Except String
        (List (IntradayTick × ℚ) × List (IntradayTick × ℚ) ×
          List ((String × String) × Option ℕ)) :=
  let pre := s.intraday.filter (fun t => decide (marketOpen ≤ t.time))
  let stocks := List.insertionSort (· ≤ ·) ((pre.map (·.stock)).dedup)
  let results := stocks.flatMap fun name =>
    refDates.map fun rd =>
      ((name, rd.1), firstCrossing (seriesFor pre name rd.2) (dictGetD avg (name, rd.1)))
  let r19 := stocks.flatMap fun name => seriesFor pre name refDate19
  let r22 := stocks.flatMap fun name => seriesFor pre name refDate22
  (⟨s.daily, pre⟩,
    if stocks.isEmpty then .error "No objects to concatenate"
    else .ok (r19, r22, results))

/-- `run_analysis` up to the point where results exist in memory (the CSV
writing is plumbing outside the analysis core). -/
def run_analysis (s : AnalysisState) :
    AnalysisState ×
      Except String
        (List (IntradayTick × ℚ) × List (IntradayTick × ℚ) ×
          List ((String × String) × Option ℕ)) :=
  analyze_intraday_data s (get_avg_volumes s.daily)

/-- The crossing-results table of a full run, or `none` when the run raises. -/
def analysisResults (s : AnalysisState) :
    Option (List ((String × String) × Option ℕ)) :=
  match (run_analysis s).2 with
  | .ok (_, _, r) => some r
  | .error _ => none

/-! ### Concrete fixtures used to exercise the pipeline -/

/-- A stock whose only daily record is dated on the 19-04-2024 reference date
(so it has zero strictly earlier records), with one positive intraday tick at
market open on that date. -/
def c2State : AnalysisState :=
  ⟨[⟨"A", refDate19, 5⟩], [⟨"A", refDate19, marketOpen, 7⟩]⟩

/-- A daily table naming only stock "A" while the intraday table names only
stock "B". -/
def c5State : AnalysisState :=
  ⟨[⟨"A", 100, 5⟩], [⟨"B", refDate19, marketOpen, 7⟩]⟩

/-- 3601 ticks of one stock on 19-04-2024: quantity 5 at market open followed
by 3600 zero-quantity ticks at strictly increasing times. -/
def c6Ticks : List IntradayTick :=
  ⟨"X", refDate19, marketOpen, 5⟩ ::
    (List.range 3600).map fun j => ⟨"X", refDate19, marketOpen + 1 + j, 0⟩

/-- A state whose single intraday tick is before the 09:15:00 cutoff. -/
def c9State : AnalysisState :=
  ⟨[], [⟨"A", refDate19, 30000, 7⟩]⟩

/-- Stock "A" has daily history but its only intraday tick is before the
market-open cutoff, so the filtered intraday table is empty. -/
def c10State : AnalysisState :=
  ⟨[⟨"A", 100, 5⟩], [⟨"A", refDate19, 30000, 7⟩]⟩

/-! ### Helper lemmas -/

/-- `listMean` only depends on the multiset of values. -/
theorem listMean_perm {l l' : List ℚ} (h : l.Perm l') : listMean l = listMean l' := by
  cases l with
  | nil => rw [← h.nil_eq]
  | cons a t =>
    cases l' with
    | nil => exact absurd h.symm.nil_eq (by simp)
    | cons b t' =>
      simp only [listMean]
      rw [h.sum_eq, h.length_eq]

/-- In a list strictly descending on a key, the elements with fewer than `n`
strictly larger keys are exactly the first `n` elements. -/
theorem filter_rank_lt_eq_take {α : Type} (key : α → ℕ) :
    ∀ (L : List α) (n : ℕ), L.Pairwise (fun a b => key b < key a) →
      L.filter (fun r => decide (L.countP (fun s => decide (key r < key s)) < n)) =
        L.take n := by
  intro L
  induction L with
  | nil => intro n _; simp
  | cons a L' ih =>
    intro n h
    rcases List.pairwise_cons.mp h with ⟨ha, h'⟩
    have count_tail : L'.countP (fun s => decide (key a < key s)) = 0 :=
      List.countP_eq_zero.mpr fun s hs => by
        simpa using Nat.not_lt.mpr (Nat.le_of_lt (ha s hs))
    have count_a : (a :: L').countP (fun s => decide (key a < key s)) = 0 := by
      rw [List.countP_cons, count_tail]
      simp
    cases n with
    | zero =>
      rw [List.take_zero]
      exact List.filter_eq_nil_iff.mpr fun r _ => by simp
    | succ m =>
      have hsplit :
          List.filter
              (fun r => decide ((a :: L').countP (fun s => decide (key r < key s)) < m + 1))
              (a :: L')
            = a :: List.filter
                (fun r => decide ((a :: L').countP (fun s => decide (key r < key s)) < m + 1))
                L' :=
        List.filter_cons_of_pos (by simp [count_a])
      rw [hsplit, List.take_succ_cons]
      congr 1
      have step : ∀ r ∈ L',
          (decide ((a :: L').countP (fun s => decide (key r < key s)) < m + 1)) =
            (decide (L'.countP (fun s => decide (key r < key s)) < m)) := by
        intro r hr
        have hra : key r < key a := ha r hr
        have hcount : (a :: L').countP (fun s => decide (key r < key s)) =
            L'.countP (fun s => decide (key r < key s)) + 1 := by
          rw [List.countP_cons]
          simp [hra]
        rw [hcount]
        exact decide_eq_decide.mpr (by omega)
      rw [List.filter_congr step]
      exact ih m h'

/-- The sorted prior selection, restated through the specification's
"chronologically nearest" wording: under the data-model invariant that a
stock has at most one daily record per date, `calculate_30_day_avg` averages
exactly the records with fewer than 30 strictly later prior records. -/
theorem calc30_characterization (daily : List DailyRecord) (stock : String) (target : ℕ)
    (hnodup : ((priorRecords daily stock target).map (·.date)).Nodup) :
    calculate_30_day_avg daily stock target
      = listMean ((nearest30 (priorRecords daily stock target)).map (·.volume))
    ∧ (nearest30 (priorRecords daily stock target)).length
        = min 30 (priorRecords daily stock target).length := by
  set P := priorRecords daily stock target with hPdef
  set L := List.insertionSort dateGE P with hLdef
  have hL_perm : L.Perm P := List.perm_insertionSort _ _
  have hL_sorted : L.Sorted dateGE := List.sorted_insertionSort _ _
  have hL_nodup : (L.map (·.date)).Nodup := ((hL_perm.map (·.date)).nodup_iff).mpr hnodup
  have hne : L.Pairwise (fun a b => a.date ≠ b.date) :=
    List.pairwise_map.mp (show (L.map (·.date)).Pairwise (· ≠ ·) from hL_nodup)
  have strict : L.Pairwise (fun a b => b.date < a.date) :=
    hL_sorted.imp₂ (fun _ _ hle hne' => lt_of_le_of_ne hle hne'.symm) hne
  have htake :
      L.filter (fun r => decide (L.countP (fun s => decide (r.date < s.date)) < 30))
        = L.take 30 :=
    filter_rank_lt_eq_take (·.date) L 30 strict
  have hcount : ∀ r : DailyRecord,
      P.countP (fun s => decide (r.date < s.date))
        = L.countP (fun s => decide (r.date < s.date)) :=
    fun r => (hL_perm.countP_eq _).symm
  have hfilter_eq :
      L.filter (fun r => decide (P.countP (fun s => decide (r.date < s.date)) < 30))
        = L.filter (fun r => decide (L.countP (fun s => decide (r.date < s.date)) < 30)) :=
    List.filter_congr fun r _ => by rw [hcount r]
  have hnear : (nearest30 P).Perm (L.take 30) := by
    have h1 : (nearest30 P).Perm
        (L.filter (fun r => decide (P.countP (fun s => decide (r.date < s.date)) < 30))) :=
      (hL_perm.symm.filter _)
    rw [hfilter_eq, htake] at h1
    exact h1
  constructor
  · calc calculate_30_day_avg daily stock target
        = listMean ((L.take 30).map (·.volume)) := rfl
      _ = listMean ((nearest30 P).map (·.volume)) :=
        listMean_perm ((hnear.map (·.volume)).symm)
  · rw [hnear.length_eq, List.length_take, hL_perm.length_eq]

/-- C1: for every stock and reference date (with at most one daily record per
date for the stock, as the data model requires), the baseline computed by
`calculate_30_day_avg` equals the arithmetic mean of the volumes of the 30
chronologically nearest records dated strictly before the reference date; with
only k < 30 such records it is the mean of all k; and the result does not
depend on the order of the input records. -/
theorem calculate_30_day_avg_spec (daily daily' : List DailyRecord) (stock : String)
    (target : ℕ) (hperm : daily.Perm daily')
    (hnodup : ((priorRecords daily stock target).map (·.date)).Nodup) :
    calculate_30_day_avg daily stock target
        = listMean ((nearest30 (priorRecords daily stock target)).map (·.volume))
    ∧ ((priorRecords daily stock target).length < 30 →
        calculate_30_day_avg daily stock target
          = listMean ((priorRecords daily stock target).map (·.volume)))
    ∧ (nearest30 (priorRecords daily stock target)).length
        = min 30 (priorRecords daily stock target).length
    ∧ calculate_30_day_avg daily' stock target = calculate_30_day_avg daily stock target := by
  set P := priorRecords daily stock target with hPdef
  set P' := priorRecords daily' stock target with hP'def
  have hPP' : P.Perm P' := hperm.filter _
  have hnodup' : (P'.map (·.date)).Nodup := ((hPP'.map (·.date)).nodup_iff).mp hnodup
  have h1 := (calc30_characterization daily stock target hnodup).1
  have hlen30 := (calc30_characterization daily stock target hnodup).2
  have h1' := (calc30_characterization daily' stock target hnodup').1
  refine ⟨h1, ?_, hlen30, ?_⟩
  · intro hlen
    have hself : nearest30 P = P :=
      List.filter_eq_self.mpr fun r _ => by
        have : P.countP (fun s => decide (r.date < s.date)) < 30 :=
          lt_of_le_of_lt (List.countP_le_length _) hlen
        simpa using this
    rw [h1, hself]
  · have hpt : nearest30 P'
        = P'.filter (fun r => decide (P.countP (fun s => decide (r.date < s.date)) < 30)) := by
      simp only [nearest30]
      exact List.filter_congr fun r _ => by rw [hPP'.countP_eq]
    have hnear : (nearest30 P').Perm (nearest30 P) := by
      rw [hpt]
      exact hPP'.symm.filter _
    rw [h1, h1']
    exact listMean_perm (hnear.map (·.volume))

/-- C1 witness: a two-record history before reference date 5, and the same
history reversed. -/
theorem calculate_30_day_avg_spec_witness :
    (([⟨"A", 1, 10⟩, ⟨"A", 2, 20⟩] : List DailyRecord).Perm
        [⟨"A", 2, 20⟩, ⟨"A", 1, 10⟩])
    ∧ ((priorRecords [⟨"A", 1, 10⟩, ⟨"A", 2, 20⟩] "A" 5).map (·.date)).Nodup
    ∧ (calculate_30_day_avg [⟨"A", 1, 10⟩, ⟨"A", 2, 20⟩] "A" 5
        = listMean
            ((nearest30 (priorRecords [⟨"A", 1, 10⟩, ⟨"A", 2, 20⟩] "A" 5)).map (·.volume))
      ∧ ((priorRecords [⟨"A", 1, 10⟩, ⟨"A", 2, 20⟩] "A" 5).length < 30 →
          calculate_30_day_avg [⟨"A", 1, 10⟩, ⟨"A", 2, 20⟩] "A" 5
            = listMean ((priorRecords [⟨"A", 1, 10⟩, ⟨"A", 2, 20⟩] "A" 5).map (·.volume)))
      ∧ (nearest30 (priorRecords [⟨"A", 1, 10⟩, ⟨"A", 2, 20⟩] "A" 5)).length
          = min 30 (priorRecords [⟨"A", 1, 10⟩, ⟨"A", 2, 20⟩] "A" 5).length
      ∧ calculate_30_day_avg [⟨"A", 2, 20⟩, ⟨"A", 1, 10⟩] "A" 5
          = calculate_30_day_avg [⟨"A", 1, 10⟩, ⟨"A", 2, 20⟩] "A" 5) :=
  ⟨List.Perm.swap (⟨"A", 2, 20⟩ : DailyRecord) (⟨"A", 1, 10⟩ : DailyRecord) [],
   by decide,
   calculate_30_day_avg_spec _ _ _ _ (List.Perm.swap (⟨"A", 2, 20⟩ : DailyRecord) (⟨"A", 1, 10⟩ : DailyRecord) []) (by decide)⟩

/-- C2 (counterexample): stock "A" has a daily record dated on the 19-04-2024
reference date and therefore zero records strictly before it, so the baseline
is NaN; its single intraday tick has positive cumulative volume 7, yet the
crossing scan records `none` for that stock and date (a float comparison
against NaN is always false), not a crossing at the first tick. -/
theorem nan_baseline_counterexample :
    calculate_30_day_avg c2State.daily "A" refDate19 = none
    ∧ priorRecords c2State.daily "A" refDate19 = []
    ∧ seriesFor (c2State.intraday.filter fun t => decide (marketOpen ≤ t.time)) "A" refDate19
        = [(⟨"A", refDate19, marketOpen, 7⟩, 7)]
    ∧ ((0:ℚ) < 7)
    ∧ analysisResults c2State
        = some [(("A", "19-04-2024"), none), (("A", "22-04-2024"), none)] := by
  refine ⟨?_, ?_, ?_, by norm_num, ?_⟩
  · norm_num [calculate_30_day_avg, priorRecords, listMean, List.insertionSort, c2State,
      refDate19]
  · norm_num [priorRecords, c2State, refDate19]
  · norm_num [seriesFor, ticksFor, rollingSums, List.insertionSort, List.orderedInsert,
      c2State, refDate19, marketOpen, List.range_succ]
  · norm_num [analysisResults, run_analysis, analyze_intraday_data, get_avg_volumes,
      assocLookup, dictGetD, firstCrossing, qGtB, seriesFor, ticksFor, rollingSums,
      calculate_30_day_avg, priorRecords, listMean, List.insertionSort, List.orderedInsert,
      c2State, refDates, refDate19, refDate22, marketOpen, List.range_succ]

/-- C2 (amended): a stock with zero daily records strictly before the
reference date gets baseline NaN (`none`) without crashing, but the crossing
scan never flags any tick against a NaN baseline — the crossing result is
`none` for every series.  (The zero-threshold default of `dict.get(..., 0)`
applies only to stocks absent from the daily table altogether, whose keys are
missing from the dictionary.) -/
theorem nan_baseline_amended (daily : List DailyRecord) (stock : String) (d : ℕ)
    (series : List (IntradayTick × ℚ))
    (h : priorRecords daily stock d = []) :
    calculate_30_day_avg daily stock d = none
    ∧ firstCrossing series (calculate_30_day_avg daily stock d) = none := by
  have h1 : calculate_30_day_avg daily stock d = none := by
    unfold calculate_30_day_avg
    rw [h]
    rfl
  refine ⟨h1, ?_⟩
  rw [h1]
  unfold firstCrossing
  have hfind : series.find? (fun p => qGtB p.2 none) = none :=
    List.find?_eq_none.mpr fun p _ => by simp [qGtB]
  rw [hfind]
  rfl

/-- C2 amended witness: the `c2State` stock and date, with its one-point
series. -/
theorem nan_baseline_amended_witness :
    priorRecords c2State.daily "A" refDate19 = []
    ∧ (calculate_30_day_avg c2State.daily "A" refDate19 = none
      ∧ firstCrossing [(⟨"A", refDate19, marketOpen, 7⟩, 7)]
          (calculate_30_day_avg c2State.daily "A" refDate19) = none) :=
  ⟨by norm_num [priorRecords, c2State, refDate19],
   nan_baseline_amended _ _ _ _ (by norm_num [priorRecords, c2State, refDate19])⟩

/-- C3: the i-th `cumulative_volume` value equals the sum of the last-traded
quantities of the trailing window of the time-sorted ticks, that window has
exactly `min (i+1) 3600` entries, and there is one output point per input
tick. -/
theorem rolling_window_sum_spec (ticks : List IntradayTick) (stock : String) (d i : ℕ)
    (h : i < (seriesFor ticks stock d).length) :
    ((seriesFor ticks stock d).map Prod.snd).getD i 0
        = ((((ticksFor ticks stock d).map (·.ltq)).take (i + 1)).drop (i + 1 - 3600)).sum
    ∧ ((((ticksFor ticks stock d).map (·.ltq)).take (i + 1)).drop (i + 1 - 3600)).length
        = min (i + 1) 3600
    ∧ (seriesFor ticks stock d).length = (ticksFor ticks stock d).length := by
  have hq_len : ((ticksFor ticks stock d).map (·.ltq)).length
      = (ticksFor ticks stock d).length := List.length_map _ _
  have hroll_len : (rollingSums ((ticksFor ticks stock d).map (·.ltq))).length
      = (ticksFor ticks stock d).length := by
    simp [rollingSums]
  have hlen : (seriesFor ticks stock d).length = (ticksFor ticks stock d).length := by
    simp [seriesFor, List.length_zip, hroll_len]
  have hi : i < (ticksFor ticks stock d).length := hlen ▸ h
  have hsnd : (seriesFor ticks stock d).map Prod.snd
      = rollingSums ((ticksFor ticks stock d).map (·.ltq)) :=
    List.map_snd_zip _ _ (le_of_eq hroll_len)
  refine ⟨?_, ?_, hlen⟩
  · rw [hsnd]
    have hi' : i < ((ticksFor ticks stock d).map (·.ltq)).length := by
      rw [hq_len]
      exact hi
    simp [rollingSums, List.getD_eq_getElem?_getD, List.getElem?_range, hi, hi']
  · rw [List.length_drop, List.length_take, hq_len]
    omega

/-- C3 witness: two ticks arriving out of time order, window at index 1. -/
theorem rolling_window_sum_spec_witness :
    (1 < (seriesFor [⟨"A", 110, 33301, 2⟩, ⟨"A", 110, 33300, 3⟩] "A" 110).length)
    ∧ (((seriesFor [⟨"A", 110, 33301, 2⟩, ⟨"A", 110, 33300, 3⟩] "A" 110).map Prod.snd).getD 1 0
        = ((((ticksFor [⟨"A", 110, 33301, 2⟩, ⟨"A", 110, 33300, 3⟩] "A" 110).map
              (·.ltq)).take (1 + 1)).drop (1 + 1 - 3600)).sum
      ∧ ((((ticksFor [⟨"A", 110, 33301, 2⟩, ⟨"A", 110, 33300, 3⟩] "A" 110).map
              (·.ltq)).take (1 + 1)).drop (1 + 1 - 3600)).length = min (1 + 1) 3600
      ∧ (seriesFor [⟨"A", 110, 33301, 2⟩, ⟨"A", 110, 33300, 3⟩] "A" 110).length
          = (ticksFor [⟨"A", 110, 33301, 2⟩, ⟨"A", 110, 33300, 3⟩] "A" 110).length) :=
  ⟨by norm_num [seriesFor, ticksFor, rollingSums, List.insertionSort, List.orderedInsert,
      timeLE, List.range_succ],
   rolling_window_sum_spec _ _ _ 1
     (by norm_num [seriesFor, ticksFor, rollingSums, List.insertionSort, List.orderedInsert,
        timeLE, List.range_succ])⟩

/-- C4: against a real (non-NaN) baseline, the crossing scan over a
time-sorted series returns the time of the earliest point whose cumulative
volume strictly exceeds the baseline, and `none` exactly when no point
exceeds it. -/
theorem firstCrossing_spec (series : List (IntradayTick × ℚ)) (b : ℚ)
    (hs : (series.map fun p => p.1.time).Pairwise (· ≤ ·)) :
    (firstCrossing series (some b) = none ↔ ∀ p ∈ series, p.2 ≤ b)
    ∧ (∀ t, firstCrossing series (some b) = some t →
        (∃ p ∈ series, p.1.time = t ∧ b < p.2)
        ∧ ∀ p ∈ series, b < p.2 → t ≤ p.1.time) := by
  induction series with
  | nil => simp [firstCrossing]
  | cons p rest ih =>
    simp only [List.map_cons, List.pairwise_cons] at hs
    have hs_tail := ih hs.2
    have hhead : ∀ q ∈ rest, p.1.time ≤ q.1.time := fun q hq =>
      hs.1 _ (List.mem_map_of_mem _ hq)
    by_cases hb : b < p.2
    · have hfc : firstCrossing (p :: rest) (some b) = some p.1.time := by
        unfold firstCrossing
        rw [List.find?_cons_of_pos _ (by simp [qGtB, hb])]
        rfl
      constructor
      · rw [hfc]
        exact ⟨fun h => by simp at h,
          fun hall => absurd hb (not_lt.mpr (hall p (List.mem_cons_self p rest)))⟩
      · intro t ht
        rw [hfc] at ht
        injection ht with ht'
        subst ht'
        refine ⟨⟨p, List.mem_cons_self p rest, rfl, hb⟩, ?_⟩
        intro q hq _
        rcases List.mem_cons.mp hq with h1 | h2
        · rw [h1]
        · exact hhead q h2
    · have hfc : firstCrossing (p :: rest) (some b) = firstCrossing rest (some b) := by
        unfold firstCrossing
        rw [List.find?_cons_of_neg _ (by simp [qGtB, hb])]
      rcases hs_tail with ⟨ih1, ih2⟩
      constructor
      · rw [hfc, ih1]
        constructor
        · intro hall q hq
          rcases List.mem_cons.mp hq with h1 | h2
          · rw [h1]
            exact not_lt.mp hb
          · exact hall q h2
        · intro hall q hq
          exact hall q (List.mem_cons_of_mem _ hq)
      · intro t ht
        rw [hfc] at ht
        rcases ih2 t ht with ⟨⟨q, hq, hqt, hbq⟩, hmin⟩
        refine ⟨⟨q, List.mem_cons_of_mem _ hq, hqt, hbq⟩, ?_⟩
        intro r hr hbr
        rcases List.mem_cons.mp hr with h1 | h2
        · exact absurd (h1 ▸ hbr) hb
        · exact hmin r h2 hbr

/-- C4 witness: a two-point time-sorted series with baseline 3, crossed by the
second point. -/
theorem firstCrossing_spec_witness :
    ((([(⟨"A", 110, 33300, 1⟩, 1), (⟨"A", 110, 33301, 5⟩, 5)] :
        List (IntradayTick × ℚ)).map fun p => p.1.time).Pairwise (· ≤ ·))
    ∧ ((firstCrossing [(⟨"A", 110, 33300, 1⟩, 1), (⟨"A", 110, 33301, 5⟩, 5)] (some 3) = none
          ↔ ∀ p ∈ ([(⟨"A", 110, 33300, 1⟩, 1), (⟨"A", 110, 33301, 5⟩, 5)] :
              List (IntradayTick × ℚ)), p.2 ≤ 3)
      ∧ (∀ t, firstCrossing [(⟨"A", 110, 33300, 1⟩, 1), (⟨"A", 110, 33301, 5⟩, 5)]
            (some 3) = some t →
          (∃ p ∈ ([(⟨"A", 110, 33300, 1⟩, 1), (⟨"A", 110, 33301, 5⟩, 5)] :
              List (IntradayTick × ℚ)), p.1.time = t ∧ 3 < p.2)
          ∧ ∀ p ∈ ([(⟨"A", 110, 33300, 1⟩, 1), (⟨"A", 110, 33301, 5⟩, 5)] :
              List (IntradayTick × ℚ)), 3 < p.2 → t ≤ p.1.time)) :=
  ⟨by decide, firstCrossing_spec _ 3 (by decide)⟩

/-- C5 (counterexample): stock "A" appears in the daily dataset but has no
intraday ticks, and stock "B" appears only in the intraday dataset; the
crossing-results table has entries exactly for "B" (the `groupby` runs over
the intraday table), so the daily stock "A" has no entry for either reference
date. -/
theorem results_table_counterexample :
    ("A" ∈ c5State.daily.map (·.stock))
    ∧ analysisResults c5State
        = some [(("B", "19-04-2024"), some 33300), (("B", "22-04-2024"), none)]
    ∧ ("A", "19-04-2024") ∉
        ([(("B", "19-04-2024"), some 33300),
          (("B", "22-04-2024"), (none : Option ℕ))].map Prod.fst)
    ∧ ("A", "22-04-2024") ∉
        ([(("B", "19-04-2024"), some 33300),
          (("B", "22-04-2024"), (none : Option ℕ))].map Prod.fst) := by
  refine ⟨by decide, ?_, by decide, by decide⟩
  have hBA : ("B" : String) ≠ "A" := by decide
  norm_num [analysisResults, run_analysis, analyze_intraday_data, get_avg_volumes,
    assocLookup, dictGetD, firstCrossing, qGtB, seriesFor, ticksFor, rollingSums,
    calculate_30_day_avg, priorRecords, listMean, List.insertionSort, List.orderedInsert,
    c5State, refDates, refDate19, refDate22, marketOpen, List.range_succ, hBA]

/-- The `Prod.fst` projection of the results table built over a stock list. -/
theorem results_keys_eq (pre : List IntradayTick)
    (avg : List ((String × String) × Option ℚ)) :
    ∀ stocks : List String,
      ((stocks.flatMap fun name => refDates.map fun rd =>
          ((name, rd.1),
            firstCrossing (seriesFor pre name rd.2) (dictGetD avg (name, rd.1)))).map
        Prod.fst)
        = stocks.flatMap fun name => [(name, "19-04-2024"), (name, "22-04-2024")] := by
  intro stocks
  induction stocks with
  | nil => rfl
  | cons x xs ih =>
    simp only [List.flatMap_cons, List.map_append, ih]
    rfl

/-- The canonical key list of the results table is duplicate-free whenever the
stock list is. -/
theorem nodup_keyPairs :
    ∀ stocks : List String, stocks.Nodup →
      (stocks.flatMap fun n => [(n, "19-04-2024"), (n, "22-04-2024")]).Nodup := by
  intro stocks
  induction stocks with
  | nil => intro _; simp
  | cons x xs ih =>
    intro h
    rcases List.nodup_cons.mp h with ⟨hx, hxs⟩
    simp only [List.flatMap_cons, List.cons_append, List.nil_append]
    refine List.nodup_cons.mpr ⟨?_, List.nodup_cons.mpr ⟨?_, ih hxs⟩⟩
    · intro hmem
      rcases List.mem_cons.mp hmem with h1 | h2
      · have hss : ("19-04-2024" : String) ≠ "22-04-2024" := by decide
        exact hss (congrArg Prod.snd h1)
      · rcases List.mem_flatMap.mp h2 with ⟨n, hn, hpair⟩
        have hxn : x = n := by
          rcases List.mem_cons.mp hpair with h3 | h4
          · exact congrArg Prod.fst h3
          · exact congrArg Prod.fst (List.mem_singleton.mp h4)
        exact hx (hxn ▸ hn)
    · intro hmem
      rcases List.mem_flatMap.mp hmem with ⟨n, hn, hpair⟩
      have hxn : x = n := by
        rcases List.mem_cons.mp hpair with h3 | h4
        · exact congrArg Prod.fst h3
        · exact congrArg Prod.fst (List.mem_singleton.mp h4)
      exact hx (hxn ▸ hn)

/-- Membership in the canonical key list. -/
theorem mem_keyPairs (stocks : List String) (name dstr : String) :
    (name, dstr) ∈ (stocks.flatMap fun n => [(n, "19-04-2024"), (n, "22-04-2024")])
      ↔ (name ∈ stocks ∧ (dstr = "19-04-2024" ∨ dstr = "22-04-2024")) := by
  simp only [List.mem_flatMap, List.mem_cons, List.mem_singleton, List.not_mem_nil,
    or_false, Prod.mk.injEq]
  constructor
  · rintro ⟨n, hn, ⟨h1, h2⟩ | ⟨h1, h2⟩⟩
    · exact ⟨h1 ▸ hn, Or.inl h2⟩
    · exact ⟨h1 ▸ hn, Or.inr h2⟩
  · rintro ⟨hn, h | h⟩
    · exact ⟨name, hn, Or.inl ⟨rfl, h⟩⟩
    · exact ⟨name, hn, Or.inr ⟨rfl, h⟩⟩

/-- The crossing-results table of a successful run, fully described:
the if-then-else form of `analysisResults`. -/
theorem analysisResults_eq (s : AnalysisState) :
    analysisResults s =
      if (List.insertionSort (· ≤ ·)
            (((s.intraday.filter fun t => decide (marketOpen ≤ t.time)).map
              (·.stock)).dedup)).isEmpty
      then none
      else some
        ((List.insertionSort (· ≤ ·)
            (((s.intraday.filter fun t => decide (marketOpen ≤ t.time)).map
              (·.stock)).dedup)).flatMap fun name =>
          refDates.map fun rd =>
            ((name, rd.1),
              firstCrossing
                (seriesFor (s.intraday.filter fun t => decide (marketOpen ≤ t.time))
                  name rd.2)
                (dictGetD (get_avg_volumes s.daily) (name, rd.1)))) := by
  cases heq : (List.insertionSort (· ≤ ·)
      (((s.intraday.filter fun t => decide (marketOpen ≤ t.time)).map
        (·.stock)).dedup)).isEmpty with
  | true =>
    simp only [analysisResults, run_analysis, analyze_intraday_data, heq]
    rfl
  | false =>
    simp only [analysisResults, run_analysis, analyze_intraday_data, heq]
    rfl

/-- C5 (amended): the crossing-results table of a successful run has exactly
one entry (duplicate-free keys) for every distinct stock of the
market-open-filtered *intraday* table — not of the daily dataset — for each
of the two reference dates. -/
theorem results_keys_amended (s : AnalysisState)
    (r : List ((String × String) × Option ℕ))
    (hr : analysisResults s = some r) :
    (r.map Prod.fst).Nodup
    ∧ ∀ name dstr : String,
        ((name, dstr) ∈ r.map Prod.fst ↔
          (name ∈ (s.intraday.filter fun t => decide (marketOpen ≤ t.time)).map (·.stock)
            ∧ (dstr = "19-04-2024" ∨ dstr = "22-04-2024"))) := by
  rw [analysisResults_eq] at hr
  by_cases hemp : (List.insertionSort (· ≤ ·)
      (((s.intraday.filter fun t => decide (marketOpen ≤ t.time)).map
        (·.stock)).dedup)).isEmpty = true
  · rw [if_pos hemp] at hr
    exact Option.noConfusion hr
  · rw [if_neg hemp] at hr
    injection hr with hr'
    subst hr'
    rw [results_keys_eq]
    have hnodup : (List.insertionSort (· ≤ ·)
        (((s.intraday.filter fun t => decide (marketOpen ≤ t.time)).map
          (·.stock)).dedup)).Nodup :=
      ((List.perm_insertionSort _ _).nodup_iff).mpr (List.nodup_dedup _)
    have hmem : ∀ a : String,
        (a ∈ List.insertionSort (· ≤ ·)
            (((s.intraday.filter fun t => decide (marketOpen ≤ t.time)).map
              (·.stock)).dedup))
          ↔ a ∈ (s.intraday.filter fun t => decide (marketOpen ≤ t.time)).map (·.stock) :=
      fun a => ((List.perm_insertionSort _ _).mem_iff).trans List.mem_dedup
    refine ⟨nodup_keyPairs _ hnodup, ?_⟩
    intro name dstr
    rw [mem_keyPairs]
    exact and_congr_left' (hmem name)

/-- C5 amended witness: the `c5State` run and its concrete results table. -/
theorem results_keys_amended_witness :
    analysisResults c5State
        = some [(("B", "19-04-2024"), some 33300), (("B", "22-04-2024"), none)]
    ∧ (([(("B", "19-04-2024"), some 33300),
          (("B", "22-04-2024"), (none : Option ℕ))].map Prod.fst).Nodup
      ∧ ∀ name dstr : String,
          ((name, dstr) ∈ ([(("B", "19-04-2024"), some 33300),
              (("B", "22-04-2024"), (none : Option ℕ))].map Prod.fst) ↔
            (name ∈ (c5State.intraday.filter fun t => decide (marketOpen ≤ t.time)).map
                (·.stock)
              ∧ (dstr = "19-04-2024" ∨ dstr = "22-04-2024")))) := by
  have hBA : ("B" : String) ≠ "A" := by decide
  have hres : analysisResults c5State
      = some [(("B", "19-04-2024"), some 33300), (("B", "22-04-2024"), none)] := by
    norm_num [analysisResults, run_analysis, analyze_intraday_data, get_avg_volumes,
      assocLookup, dictGetD, firstCrossing, qGtB, seriesFor, ticksFor, rollingSums,
      calculate_30_day_avg, priorRecords, listMean, List.insertionSort,
      List.orderedInsert, c5State, refDates, refDate19, refDate22, marketOpen,
      List.range_succ, hBA]
  exact ⟨hres, results_keys_amended _ _ hres⟩

/-- Pointwise description of `rollingSums`. -/
theorem rollingSums_getD (qs : List ℚ) (i : ℕ) (hi : i < qs.length) :
    (rollingSums qs).getD i 0 = ((qs.take (i + 1)).drop (i + 1 - 3600)).sum := by
  simp [rollingSums, List.getD_eq_getElem?_getD, List.getElem?_range, hi]

/-- C6 (amended): consecutive rolling-series values are non-decreasing (for
non-negative tick quantities) as long as the later point is among the first
3600, i.e. while the positional window is still growing; once the window
slides, values can decrease. -/
theorem rolling_monotone_amended (ticks : List IntradayTick) (stock : String) (d i : ℕ)
    (h0 : ∀ t ∈ ticks, 0 ≤ t.ltq)
    (hi : i + 1 < (seriesFor ticks stock d).length)
    (hw : i + 1 < 3600) :
    ((seriesFor ticks stock d).map Prod.snd).getD i 0
      ≤ ((seriesFor ticks stock d).map Prod.snd).getD (i + 1) 0 := by
  have hroll_len : (rollingSums ((ticksFor ticks stock d).map (·.ltq))).length
      = (ticksFor ticks stock d).length := by
    simp [rollingSums]
  have hlen : (seriesFor ticks stock d).length = (ticksFor ticks stock d).length := by
    simp [seriesFor, List.length_zip, hroll_len]
  have hsnd : (seriesFor ticks stock d).map Prod.snd
      = rollingSums ((ticksFor ticks stock d).map (·.ltq)) :=
    List.map_snd_zip _ _ (le_of_eq hroll_len)
  have hi1 : i + 1 < ((ticksFor ticks stock d).map (·.ltq)).length := by
    rw [List.length_map]
    rw [hlen] at hi
    exact hi
  have hi0 : i < ((ticksFor ticks stock d).map (·.ltq)).length := Nat.lt_of_succ_lt hi1
  rw [hsnd, rollingSums_getD _ i hi0, rollingSums_getD _ (i + 1) hi1]
  have e1 : i + 1 - 3600 = 0 := by omega
  have e2 : i + 1 + 1 - 3600 = 0 := by omega
  rw [e1, e2, List.drop_zero, List.drop_zero]
  have hnn : 0 ≤ ((((ticksFor ticks stock d).map (·.ltq))[i + 1]?).toList).sum := by
    cases hq : ((ticksFor ticks stock d).map (·.ltq))[i + 1]? with
    | none => simp
    | some q =>
      have hqmem : q ∈ (ticksFor ticks stock d).map (·.ltq) := List.getElem?_mem hq
      rcases List.mem_map.mp hqmem with ⟨t, ht, hteq⟩
      have ht2 : t ∈ ticks.filter (fun u => u.stock == stock && u.date == d) :=
        ((List.perm_insertionSort _ _).mem_iff).mp ht
      have ht3 : t ∈ ticks := List.mem_of_mem_filter ht2
      simp only [Option.toList_some, List.sum_cons, List.sum_nil, add_zero]
      rw [← hteq]
      exact h0 t ht3
  conv_rhs => rw [List.take_succ, List.sum_append]
  exact le_add_of_nonneg_right hnn

/-- C6 amended witness: two ticks with non-negative quantities. -/
theorem rolling_monotone_amended_witness :
    (∀ t ∈ ([⟨"A", 110, 33300, 1⟩, ⟨"A", 110, 33301, 2⟩] : List IntradayTick), 0 ≤ t.ltq)
    ∧ 0 + 1 < (seriesFor [⟨"A", 110, 33300, 1⟩, ⟨"A", 110, 33301, 2⟩] "A" 110).length
    ∧ 0 + 1 < 3600
    ∧ ((seriesFor [⟨"A", 110, 33300, 1⟩, ⟨"A", 110, 33301, 2⟩] "A" 110).map
          Prod.snd).getD 0 0
        ≤ ((seriesFor [⟨"A", 110, 33300, 1⟩, ⟨"A", 110, 33301, 2⟩] "A" 110).map
          Prod.snd).getD (0 + 1) 0 := by
  have h0 : ∀ t ∈ ([⟨"A", 110, 33300, 1⟩, ⟨"A", 110, 33301, 2⟩] : List IntradayTick),
      0 ≤ t.ltq := by
    intro t ht
    fin_cases ht <;> norm_num
  have hi : (0:ℕ) + 1 < (seriesFor [⟨"A", 110, 33300, 1⟩, ⟨"A", 110, 33301, 2⟩]
      "A" 110).length := by
    norm_num [seriesFor, ticksFor, rollingSums, List.insertionSort, List.orderedInsert,
      timeLE, List.range_succ]
  exact ⟨h0, hi, by norm_num, rolling_monotone_amended _ _ _ 0 h0 hi (by norm_num)⟩

/-- C6 (counterexample): with 3601 ticks of non-negative quantity — 5 at
market open followed by 3600 zeros — the window slides at index 3600 and the
cumulative value drops from 5 to 0, so the produced rolling series is not
monotonically non-decreasing for series longer than the 3600-tick window. -/
theorem rolling_monotone_counterexample :
    (∀ t ∈ c6Ticks, 0 ≤ t.ltq)
    ∧ (seriesFor c6Ticks "X" refDate19).length = 3601
    ∧ ((seriesFor c6Ticks "X" refDate19).map Prod.snd).getD 3600 0
        < ((seriesFor c6Ticks "X" refDate19).map Prod.snd).getD 3599 0 := by
  have h0 : ∀ t ∈ c6Ticks, 0 ≤ t.ltq := by
    intro t ht
    rcases List.mem_cons.mp ht with h | h
    · rw [h]
      norm_num
    · rcases List.mem_map.mp h with ⟨j, _, hje⟩
      rw [← hje]
  have hfilter : c6Ticks.filter (fun t => t.stock == "X" && t.date == refDate19)
      = c6Ticks := by
    apply List.filter_eq_self.mpr
    intro t ht
    rcases List.mem_cons.mp ht with h | h
    · rw [h]
      rfl
    · rcases List.mem_map.mp h with ⟨j, _, hje⟩
      rw [← hje]
      rfl
  have hsorted : c6Ticks.Pairwise timeLE := by
    unfold c6Ticks
    refine List.pairwise_cons.mpr ⟨?_, ?_⟩
    · intro t ht
      rcases List.mem_map.mp ht with ⟨j, _, hje⟩
      rw [← hje]
      show marketOpen ≤ marketOpen + 1 + j
      omega
    · refine List.pairwise_map.mpr ?_
      refine (List.pairwise_lt_range 3600).imp ?_
      intro a b hab
      show marketOpen + 1 + a ≤ marketOpen + 1 + b
      omega
  have hst : ticksFor c6Ticks "X" refDate19 = c6Ticks := by
    unfold ticksFor
    rw [hfilter]
    exact List.Sorted.insertionSort_eq hsorted
  have htail : ((List.range 3600).map fun j =>
      (⟨"X", refDate19, marketOpen + 1 + j, 0⟩ : IntradayTick)).map (·.ltq)
      = List.replicate 3600 (0:ℚ) := by
    apply List.eq_replicate_iff.mpr
    refine ⟨by rw [List.length_map, List.length_map, List.length_range], ?_⟩
    intro b hb
    rcases List.mem_map.mp hb with ⟨t, ht, hte⟩
    rcases List.mem_map.mp ht with ⟨j, _, hje⟩
    rw [← hte, ← hje]
  have hqs : c6Ticks.map (·.ltq) = (5:ℚ) :: List.replicate 3600 0 := by
    unfold c6Ticks
    rw [List.map_cons, htail]
  have hq_len : (c6Ticks.map (·.ltq)).length = 3601 := by
    rw [hqs, List.length_cons, List.length_replicate]
  have hroll_len6 : (rollingSums (c6Ticks.map (·.ltq))).length = c6Ticks.length := by
    simp only [rollingSums, List.length_map, List.length_range]
  have hsnd : (seriesFor c6Ticks "X" refDate19).map Prod.snd
      = rollingSums (c6Ticks.map (·.ltq)) := by
    unfold seriesFor
    rw [hst]
    exact List.map_snd_zip _ _ (le_of_eq hroll_len6)
  have g3599 := rollingSums_getD (c6Ticks.map (·.ltq)) 3599 (by rw [hq_len]; norm_num)
  have g3600 := rollingSums_getD (c6Ticks.map (·.ltq)) 3600 (by rw [hq_len]; norm_num)
  have v3599 : (rollingSums (c6Ticks.map (·.ltq))).getD 3599 0 = 5 := by
    rw [g3599, hqs]
    rw [show (3599:ℕ) + 1 - 3600 = 0 from by norm_num, List.drop_zero]
    rw [List.take_succ_cons, List.take_replicate,
      min_eq_left (by norm_num : (3599:ℕ) ≤ 3600)]
    rw [List.sum_cons, List.sum_replicate, smul_zero, add_zero]
  have v3600 : (rollingSums (c6Ticks.map (·.ltq))).getD 3600 0 = 0 := by
    rw [g3600, hqs]
    rw [show (3600:ℕ) + 1 - 3600 = 0 + 1 from by norm_num]
    rw [show (3600:ℕ) + 1 = 3601 from by norm_num]
    rw [List.take_of_length_le
      (by rw [List.length_cons, List.length_replicate] : ((5:ℚ) :: List.replicate 3600 0).length ≤ 3601)]
    rw [List.drop_succ_cons, List.drop_zero]
    rw [List.sum_replicate, smul_zero]
  refine ⟨h0, ?_, ?_⟩
  · unfold seriesFor
    rw [hst]
    rw [List.length_zip, hroll_len6]
    rw [show c6Ticks.length = 3601 from by
      unfold c6Ticks
      rw [List.length_cons, List.length_map, List.length_range]]
    norm_num
  · rw [hsnd, v3599, v3600]
    norm_num

/-- C7: the rolling series contains exactly one point per intraday tick of the
stock on the date at or after the 09:15:00 cutoff (the series ticks are a
permutation of exactly that filter, and counts agree), in ascending
time-of-day order; ticks before the cutoff or on other dates contribute
nothing. -/
theorem series_coverage_spec (ticks : List IntradayTick) (stock : String) (d : ℕ) :
    ((seriesFor (ticks.filter fun t => decide (marketOpen ≤ t.time)) stock d).map
        Prod.fst).Perm
      (ticks.filter fun t => (t.stock == stock && t.date == d)
          && decide (marketOpen ≤ t.time))
    ∧ ((seriesFor (ticks.filter fun t => decide (marketOpen ≤ t.time)) stock d).map
        Prod.fst).Pairwise timeLE
    ∧ (seriesFor (ticks.filter fun t => decide (marketOpen ≤ t.time)) stock d).length
        = (ticks.filter fun t => (t.stock == stock && t.date == d)
            && decide (marketOpen ≤ t.time)).length := by
  have hroll : (rollingSums
        ((ticksFor (ticks.filter fun t => decide (marketOpen ≤ t.time)) stock d).map
          (·.ltq))).length
      = (ticksFor (ticks.filter fun t => decide (marketOpen ≤ t.time)) stock d).length := by
    simp only [rollingSums, List.length_map, List.length_range]
  have hfst : (seriesFor (ticks.filter fun t => decide (marketOpen ≤ t.time)) stock d).map
        Prod.fst
      = ticksFor (ticks.filter fun t => decide (marketOpen ≤ t.time)) stock d := by
    unfold seriesFor
    exact List.map_fst_zip _ _ (le_of_eq hroll.symm)
  have hff : (ticks.filter fun t => decide (marketOpen ≤ t.time)).filter
        (fun t => t.stock == stock && t.date == d)
      = ticks.filter (fun t => (t.stock == stock && t.date == d)
          && decide (marketOpen ≤ t.time)) := List.filter_filter _ _
  have hperm := List.perm_insertionSort timeLE
    ((ticks.filter fun t => decide (marketOpen ≤ t.time)).filter
      (fun t => t.stock == stock && t.date == d))
  refine ⟨?_, ?_, ?_⟩
  · rw [hfst, ← hff]
    exact hperm
  · rw [hfst]
    exact List.sorted_insertionSort timeLE _
  · have hlen : (seriesFor (ticks.filter fun t => decide (marketOpen ≤ t.time))
        stock d).length
        = (ticksFor (ticks.filter fun t => decide (marketOpen ≤ t.time)) stock d).length := by
      unfold seriesFor
      rw [List.length_zip, hroll]
      exact Nat.min_self _
    rw [hlen, ← hff]
    exact hperm.length_eq

/-- C9 (counterexample): `analyze_intraday_data` reassigns the stored intraday
table to its market-open-filtered version; with a single pre-09:15 tick the
loaded intraday table changes from one row to empty. -/
theorem purity_counterexample :
    (analyze_intraday_data c9State (get_avg_volumes c9State.daily)).1.intraday
      ≠ c9State.intraday
    ∧ (analyze_intraday_data c9State (get_avg_volumes c9State.daily)).1.intraday = []
    ∧ c9State.intraday = [⟨"A", refDate19, 30000, 7⟩] := by
  refine ⟨?_, by decide, by decide⟩
  decide

/-- C9 (amended): the daily table is never touched and the per-stock
computations take no mutable state, but `analyze_intraday_data` replaces the
stored intraday table with its market-open-filtered version; the state is
preserved exactly when every loaded tick is already at or after 09:15:00. -/
theorem state_change_amended (s : AnalysisState)
    (avg : List ((String × String) × Option ℚ)) :
    (analyze_intraday_data s avg).1.daily = s.daily
    ∧ (analyze_intraday_data s avg).1.intraday
        = s.intraday.filter (fun t => decide (marketOpen ≤ t.time))
    ∧ ((∀ t ∈ s.intraday, marketOpen ≤ t.time) → (analyze_intraday_data s avg).1 = s) := by
  refine ⟨rfl, rfl, ?_⟩
  intro hall
  have hf : s.intraday.filter (fun t => decide (marketOpen ≤ t.time)) = s.intraday :=
    List.filter_eq_self.mpr fun t ht => by simpa using hall t ht
  have h1 : (analyze_intraday_data s avg).1
      = ⟨s.daily, s.intraday.filter (fun t => decide (marketOpen ≤ t.time))⟩ := rfl
  rw [h1, hf]

/-- C9 amended witness: a state whose only tick is at market open. -/
theorem state_change_amended_witness :
    (∀ t ∈ ([⟨"A", refDate19, 33300, 7⟩] : List IntradayTick), marketOpen ≤ t.time)
    ∧ (analyze_intraday_data ⟨[], [⟨"A", refDate19, 33300, 7⟩]⟩ []).1
        = (⟨[], [⟨"A", refDate19, 33300, 7⟩]⟩ : AnalysisState) :=
  ⟨by decide, (state_change_amended _ _).2.2 (by decide)⟩

/-- C10 (counterexample): when every intraday tick is before the market-open
cutoff, the filtered table is empty, the `groupby` produces no frames, and
`pd.concat` of the empty list raises — the analysis errors rather than
producing empty series and absent results. -/
theorem no_ticks_counterexample :
    (c10State.intraday.filter fun t => decide (marketOpen ≤ t.time)) = []
    ∧ (c10State.intraday.filter fun t =>
        (t.stock == "A" && t.date == refDate19) && decide (marketOpen ≤ t.time)) = []
    ∧ analysisResults c10State = none
    ∧ (run_analysis c10State).2 = Except.error "No objects to concatenate" := by
  refine ⟨by decide, by decide, by decide, by rfl⟩

/-- Looking up one (stock, reference date) key in the results table built over
a stock list returns exactly that pair's crossing value. -/
theorem assocLookup_results (pre : List IntradayTick)
    (avg : List ((String × String) × Option ℚ)) :
    ∀ (stocks : List String) (name : String) (rd : String × ℕ),
      name ∈ stocks → rd ∈ refDates →
      assocLookup
        (stocks.flatMap fun n => refDates.map fun rd' =>
          ((n, rd'.1), firstCrossing (seriesFor pre n rd'.2) (dictGetD avg (n, rd'.1))))
        (name, rd.1)
        = some (firstCrossing (seriesFor pre name rd.2) (dictGetD avg (name, rd.1))) := by
  intro stocks
  induction stocks with
  | nil =>
    intro name rd h _
    exact absurd h (List.not_mem_nil name)
  | cons x xs ih =>
    intro name rd hmem hrd
    by_cases hx : name = x
    · subst hx
      simp only [refDates, List.mem_cons, List.not_mem_nil, or_false] at hrd
      rcases hrd with h | h
      · subst h
        simp [List.flatMap_cons, refDates, assocLookup]
      · subst h
        have hss : (("22-04-2024" : String) = "19-04-2024") ↔ False :=
          iff_false_intro (by decide)
        simp [List.flatMap_cons, refDates, assocLookup, hss]
    · have hxs : name ∈ xs := by
        rcases List.mem_cons.mp hmem with h | h
        · exact absurd h hx
        · exact h
      have h1 : (name, rd.1) ≠ (x, "19-04-2024") := fun hc => hx (congrArg Prod.fst hc)
      have h2 : (name, rd.1) ≠ (x, "22-04-2024") := fun hc => hx (congrArg Prod.fst hc)
      simp only [List.flatMap_cons, refDates, List.map_cons, List.map_nil,
        List.cons_append, List.nil_append, assocLookup]
      rw [if_neg h1, if_neg h2]
      exact ih name rd hxs hrd

/-- C10 (amended): provided at least one intraday tick survives the
market-open filter (otherwise the final concatenation raises), a stock with no
surviving ticks for a reference date gets an empty rolling series, the run
succeeds, and — whenever the stock appears in the filtered intraday table at
all — its crossing result for that date is recorded as `none`. -/
theorem no_ticks_amended (s : AnalysisState) (stock dstr : String) (d : ℕ)
    (hrd : (dstr, d) ∈ refDates)
    (hne : s.intraday.filter (fun t => decide (marketOpen ≤ t.time)) ≠ [])
    (hempty : (s.intraday.filter (fun t => decide (marketOpen ≤ t.time))).filter
        (fun t => t.stock == stock && t.date == d) = []) :
    seriesFor (s.intraday.filter fun t => decide (marketOpen ≤ t.time)) stock d = []
    ∧ ∃ r, analysisResults s = some r
        ∧ (stock ∈ ((s.intraday.filter fun t => decide (marketOpen ≤ t.time)).map (·.stock))
            → assocLookup r (stock, dstr) = some none) := by
  have hstick : ticksFor (s.intraday.filter fun t => decide (marketOpen ≤ t.time))
      stock d = [] := by
    unfold ticksFor
    rw [hempty]
    rfl
  have hseries : seriesFor (s.intraday.filter fun t => decide (marketOpen ≤ t.time))
      stock d = [] := by
    unfold seriesFor
    rw [hstick]
    rfl
  have hmapne : ((s.intraday.filter fun t => decide (marketOpen ≤ t.time)).map
      (·.stock)) ≠ [] := by
    intro hc
    exact hne (List.map_eq_nil_iff.mp hc)
  have hddne : ((s.intraday.filter fun t => decide (marketOpen ≤ t.time)).map
      (·.stock)).dedup ≠ [] := by
    intro hc
    exact hmapne ((List.dedup_eq_nil _).mp hc)
  have hsortne : (List.insertionSort (· ≤ ·)
      (((s.intraday.filter fun t => decide (marketOpen ≤ t.time)).map
        (·.stock)).dedup)) ≠ [] := by
    intro hc
    apply hddne
    have hl := (List.perm_insertionSort (· ≤ ·)
      (((s.intraday.filter fun t => decide (marketOpen ≤ t.time)).map
        (·.stock)).dedup)).length_eq
    rw [hc] at hl
    exact List.length_eq_zero.mp hl.symm
  have hempty_false : (List.insertionSort (· ≤ ·)
      (((s.intraday.filter fun t => decide (marketOpen ≤ t.time)).map
        (·.stock)).dedup)).isEmpty = false := by
    cases heq : (List.insertionSort (· ≤ ·)
        (((s.intraday.filter fun t => decide (marketOpen ≤ t.time)).map
          (·.stock)).dedup)).isEmpty
    · rfl
    · exact absurd (List.isEmpty_iff.mp heq) hsortne
  refine ⟨hseries, ?_⟩
  refine ⟨(List.insertionSort (· ≤ ·)
      (((s.intraday.filter fun t => decide (marketOpen ≤ t.time)).map
        (·.stock)).dedup)).flatMap fun name =>
      refDates.map fun rd =>
        ((name, rd.1),
          firstCrossing
            (seriesFor (s.intraday.filter fun t => decide (marketOpen ≤ t.time)) name rd.2)
            (dictGetD (get_avg_volumes s.daily) (name, rd.1))), ?_, ?_⟩
  · rw [analysisResults_eq, hempty_false, if_neg Bool.false_ne_true]
  · intro hmem
    have hstocks_mem : stock ∈ List.insertionSort (· ≤ ·)
        (((s.intraday.filter fun t => decide (marketOpen ≤ t.time)).map
          (·.stock)).dedup) := by
      rw [List.Perm.mem_iff (List.perm_insertionSort _ _), List.mem_dedup]
      exact hmem
    have hlk' : assocLookup
        ((List.insertionSort (· ≤ ·)
          (((s.intraday.filter fun t => decide (marketOpen ≤ t.time)).map
            (·.stock)).dedup)).flatMap fun name =>
          refDates.map fun rd =>
            ((name, rd.1),
              firstCrossing
                (seriesFor (s.intraday.filter fun t => decide (marketOpen ≤ t.time))
                  name rd.2)
                (dictGetD (get_avg_volumes s.daily) (name, rd.1))))
        (stock, dstr)
        = some (firstCrossing
            (seriesFor (s.intraday.filter fun t => decide (marketOpen ≤ t.time)) stock d)
            (dictGetD (get_avg_volumes s.daily) (stock, dstr))) :=
      assocLookup_results _ _ _ stock (dstr, d) hstocks_mem hrd
    rw [hlk', hseries]
    rfl

/-- C10 amended witness: a stock whose only (post-open) tick is on 22-04-2024,
checked against the 19-04-2024 reference date. -/
theorem no_ticks_amended_witness :
    (("19-04-2024", refDate19) ∈ refDates)
    ∧ ((⟨[], [⟨"B", refDate22, 33300, 7⟩]⟩ : AnalysisState).intraday.filter
        (fun t => decide (marketOpen ≤ t.time))) ≠ []
    ∧ (((⟨[], [⟨"B", refDate22, 33300, 7⟩]⟩ : AnalysisState).intraday.filter
        (fun t => decide (marketOpen ≤ t.time))).filter
        (fun t => t.stock == "B" && t.date == refDate19)) = []
    ∧ (seriesFor ((⟨[], [⟨"B", refDate22, 33300, 7⟩]⟩ : AnalysisState).intraday.filter
          fun t => decide (marketOpen ≤ t.time)) "B" refDate19 = []
      ∧ ∃ r, analysisResults ⟨[], [⟨"B", refDate22, 33300, 7⟩]⟩ = some r
          ∧ ("B" ∈ (((⟨[], [⟨"B", refDate22, 33300, 7⟩]⟩ : AnalysisState).intraday.filter
                fun t => decide (marketOpen ≤ t.time)).map (·.stock))
              → assocLookup r ("B", "19-04-2024") = some none)) := by
  refine ⟨by decide, by decide, by decide,
    no_ticks_amended _ _ _ _ (by decide) (by decide) (by decide)⟩
